import Mathlib

/-!
Shallow embedding of the `amateur-callsigns-file-watch` repository.

The repository has two stages:
* a discovery/scrape stage (`src/unnamed/part_001`, a Node script) that fetches an
  HTML page, finds the single amateur-callsigns CSV link (`findCsvLink`), extracts a
  provenance date from the surrounding table row (`extractUpdateDateFromHtmlTable`),
  resolves the link to an absolute URL (`buildAbsoluteOfcomUrl`) and downloads the file;
* a processing stage (`src/src/process-csv.ts`) that decides via content hashes whether
  reprocessing is needed (`isProcessingNeeded`), and if so parses the CSV, sorts it by
  the first header column (`processCSV`), writes derived artifacts and a metadata record.

Strings are modelled as lists of characters (`Str`).  External collaborators that the
spec declares out of scope (the CSV parser/serializer, JSON serialization and the SHA-256
digest) are modelled as parameters of a `Prims` structure; filesystem contents are
explicit state (`PState`, `SState`); a write log records every successful file write.
-/

abbrev Str := List Char

/-- Model of JavaScript `String.prototype.toLowerCase` (ASCII case folding, which agrees
with JS on the ASCII range used by the hrefs and callsign values in this repository). -/
def toLowerStr (s : Str) : Str := s.map Char.toLower

/-- Model of JavaScript `String.prototype.trim`. -/
def trimStr (s : Str) : Str :=
  ((s.dropWhile Char.isWhitespace).reverse.dropWhile Char.isWhitespace).reverse

/-- Boolean test that `pat` is a leading segment of `s`. -/
def strStartsWith : Str → Str → Bool
  | _, [] => true
  | [], _ :: _ => false
  | c :: cs, d :: ds => c == d && strStartsWith cs ds

/-- Model of JavaScript `a.includes(b)`: substring containment. -/
def strIncludes (s pat : Str) : Bool :=
  match s with
  | [] => pat.isEmpty
  | _ :: rest => strStartsWith s pat || strIncludes rest pat

/-- Character comparison by code point, the base case of the model of
`String.prototype.localeCompare`. -/
def charCmp (c d : Char) : Ordering :=
  if c.toNat < d.toNat then Ordering.lt
  else if d.toNat < c.toNat then Ordering.gt
  else Ordering.eq

/-- Model of `String.prototype.localeCompare` as used by `processCSV`: the comparator is
only ever applied to lowercased values, and on lowercase ASCII alphanumeric strings
(callsigns: digits sort before letters) the en-locale collation agrees with code-point
lexicographic order, which this definition implements. -/
def compareStr : Str → Str → Ordering
  | [], [] => Ordering.eq
  | [], _ :: _ => Ordering.lt
  | _ :: _, [] => Ordering.gt
  | c :: cs, d :: ds => (charCmp c d).then (compareStr cs ds)

/-! ### CSV records and the sort in `processCSV` (src/src/process-csv.ts lines 79-93) -/

/-- A parsed CSV row, as produced by `csv-parse` with `columns: true`: an ordered
association of column-header names to cell strings (`CsvRecord` in the source). -/
abbrev CsvRecord := List (Str × Str)

/-- Model of `String(a[firstColumnName] || '')`: a missing key (and `Object.keys` of an
empty record giving an undefined column name) yields the empty string. -/
def getVal (r : CsvRecord) (k : Option Str) : Str :=
  match k with
  | none => []
  | some key => (r.lookup key).getD []

/-- The sort key used by the comparator in `processCSV`:
`String(a[firstColumnName] || '').toLowerCase()`. -/
def sortKey (k : Option Str) (r : CsvRecord) : Str := toLowerStr (getVal r k)

/-- The comparator passed to `Array.prototype.sort` in `processCSV`, as a relation:
`valA.localeCompare(valB) <= 0`. -/
def recLe (k : Option Str) (a b : CsvRecord) : Prop :=
  compareStr (sortKey k a) (sortKey k b) ≠ Ordering.gt

instance (k : Option Str) (a b : CsvRecord) : Decidable (recLe k a b) := by
  unfold recLe
  infer_instance

/-- Model of `[...csvData].sort(comparator)`: ECMAScript `Array.prototype.sort` is
specified to be stable, and a stable sort by a lawful comparator is extensionally the
insertion sort by the comparator's non-strict order (the spread copies the array, so the
original `csvData` is not mutated - in the model the input list is simply reused). -/
def sortRecords (k : Option Str) (l : List CsvRecord) : List CsvRecord :=
  List.insertionSort (recLe k) l


/-! ### DOM model for the scrape stage (src/unnamed/part_001) -/

/-- The uppercase `tagName` of anchor elements. -/
def tagA : Str := "A".toList

/-- The uppercase `tagName` of table cells. -/
def tagTD : Str := "TD".toList

/-- The uppercase `tagName` of table rows. -/
def tagTR : Str := "TR".toList

/-- The attribute name `href`. -/
def attrHref : Str := "href".toList

/-- A node of the parsed HTML document: an element with an (uppercase, as `tagName`
reports for HTML documents) tag, attributes and children, or a text node. -/
inductive HNode where
  | elem (tag : Str) (attrs : List (Str × Str)) (children : List HNode)
  | text (s : Str)

/-- Tag test for an element node (text nodes never match). -/
def HNode.isTag (n : HNode) (t : Str) : Bool :=
  match n with
  | .elem tg _ _ => tg == t
  | .text _ => false

/-- Model of `element.getAttribute(name)`. -/
def HNode.getAttr (n : HNode) (name : Str) : Option Str :=
  match n with
  | .elem _ attrs _ => attrs.lookup name
  | .text _ => none

mutual

/-- Model of the DOM `textContent`: concatenation of all descendant text nodes. -/
def HNode.textContent : HNode → Str
  | .text s => s
  | .elem _ _ cs => HNode.textContentList cs

def HNode.textContentList : List HNode → Str
  | [] => []
  | c :: cs => HNode.textContent c ++ HNode.textContentList cs

end

mutual

/-- All descendants of a node in document (preorder) order, the node itself excluded. -/
def HNode.descendants : HNode → List HNode
  | .text _ => []
  | .elem _ _ cs => HNode.descList cs

def HNode.descList : List HNode → List HNode
  | [] => []
  | c :: cs => c :: (HNode.descendants c ++ HNode.descList cs)

end

/-- Model of `tableRow.querySelectorAll('td')`: all descendant `TD` elements of the row
in document order. -/
def tdCells (row : HNode) : List HNode :=
  row.descendants.filter (fun n => n.isTag tagTD)

/-- An anchor element found by `document.querySelectorAll('a')`, together with the data
the scrape script reads from it: its `href` attribute, its `textContent`, its own tag
and its chain of ancestor elements (nearest first), used for the upward `parentElement`
walk in `extractUpdateDateFromHtmlTable`. -/
structure LinkCtx where
  href : Option Str
  textC : Str
  selfTag : Str
  chain : List HNode

mutual

/-- Collect the anchor (`A`) elements below a node in document order, recording each
anchor's ancestor chain (`chain` is the accumulated list of ancestors, nearest first). -/
def anchorsOf (chain : List HNode) : HNode → List LinkCtx
  | .text _ => []
  | .elem tag attrs cs =>
    (if tag == tagA then
      [⟨attrs.lookup attrHref, HNode.textContentList cs, tag, chain⟩]
    else []) ++ anchorsList (HNode.elem tag attrs cs :: chain) cs

def anchorsList (chain : List HNode) : List HNode → List LinkCtx
  | [] => []
  | c :: cs => anchorsOf chain c ++ anchorsList chain cs

end

/-- Model of `document.querySelectorAll('a')` over the parsed document: every anchor
element of the document tree, in document order, with its context. -/
def documentAnchors (doc : HNode) : List LinkCtx := anchorsOf [] doc

/-! ### Link discovery (`findCsvLink`, src/unnamed/part_001 lines 66-98) -/

/-- The result record of `findCsvLink` (`HtmlLinkDetails` in the source): the `href` as
found on the page, the anchor's display text (already trimmed when pushed, matching
`element.textContent?.trim() || ''`), and the element, kept to locate the table row. -/
structure HtmlLinkDetails where
  href : Str
  text : Str
  element : LinkCtx

/-- The two failure modes of `findCsvLink`: no candidate link, or more than one. -/
inductive FindErr where
  | notFound
  | multipleFound (n : Nat)
deriving DecidableEq

/-- The filter condition of `findCsvLink`:
`href && href.toLowerCase().includes('amateur') && href.toLowerCase().includes('.csv')`. -/
def linkMatches (l : LinkCtx) : Bool :=
  match l.href with
  | some href =>
    strIncludes (toLowerStr href) ("amateur".toList)
      && strIncludes (toLowerStr href) (".csv".toList)
  | none => false

/-- Model of `findCsvLink`: collect the anchors whose `href` case-insensitively contains
both `amateur` and `.csv`; throw if there are zero or more than one, otherwise return
the single match. -/
def findCsvLink (doc : HNode) : Except FindErr HtmlLinkDetails :=
  let csvLinks := (documentAnchors doc).filterMap (fun l =>
    if linkMatches l then
      some ({ href := l.href.getD [], text := trimStr l.textC, element := l } : HtmlLinkDetails)
    else none)
  match csvLinks with
  | [] => Except.error FindErr.notFound
  | [l] => Except.ok l
  | ls => Except.error (FindErr.multipleFound ls.length)

/-! ### Provenance date extraction (src/unnamed/part_001 lines 101-128) -/

/-- The upward `parentElement` walk of `extractUpdateDateFromHtmlTable`: starting from
the link element (tag `selfTag`), step to the parent and stop at the first ancestor
whose `tagName` is `TR`; `null` when no such ancestor exists (and also, as in the
source's loop, when the starting element itself is already a `TR`, since the `while`
condition then fails before any step). -/
def findAncestorRow (selfTag : Str) (chain : List HNode) : Option HNode :=
  if selfTag == tagTR then none else walkUp chain
where
  walkUp : List HNode → Option HNode
    | [] => none
    | n :: rest => if n.isTag tagTR then some n else walkUp rest

/-- Model of `extractUpdateDateFromHtmlTable`: find the nearest ancestor table row; if
it has at least two `td` cells, return the second cell's trimmed `textContent`, unless
that is empty (`|| null`); in every other case return `null`. -/
def extractUpdateDateFromHtmlTable (selfTag : Str) (chain : List HNode) : Option Str :=
  match findAncestorRow selfTag chain with
  | some tableRow =>
    let cells := tdCells tableRow
    if 1 < cells.length then
      let date := trimStr (HNode.textContent (cells.getD 1 (HNode.text [])))
      if date.isEmpty then none else some date
    else none
  | none => none

/-! ### URL normalization (`buildAbsoluteOfcomUrl`, src/unnamed/part_001 lines 130-137) -/

/-- The base origin `OFCOM_BASE_URL` from `src/src/utils.ts`. -/
def OFCOM_BASE_URL : Str := "https://www.ofcom.org.uk".toList

/-- Model of `url.match(/^https?:\/\//)`: the regex matches exactly the strings starting
with the literal `http://` or `https://`. -/
def hasHttpScheme (url : Str) : Bool :=
  strStartsWith url ("http://".toList) || strStartsWith url ("https://".toList)

/-- Model of `buildAbsoluteOfcomUrl`: absolute URLs pass through unchanged; otherwise a
leading `/` is added if missing and the result is appended to the base origin. -/
def buildAbsoluteOfcomUrl (url : Str) : Str :=
  if hasHttpScheme url then url
  else
    let relativeUrl := if strStartsWith url ("/".toList) then url else '/' :: url
    OFCOM_BASE_URL ++ relativeUrl

/-! ### The scrape run (`main` of src/unnamed/part_001 lines 140-229) -/

/-- The discovery metadata record (`CsvDownloadMetadata` in `src/src/utils.ts`). -/
structure CsvDownloadMetadata where
  url : Str
  ofcomReportedLastUpdate : Str
  linkText : Str
deriving DecidableEq

/-- Environment of one scrape run.  The HTTP fetch, the JSDOM parse of the fetched HTML
and the file download are external collaborators; the environment records their
behaviour for this run: whether the page fetch succeeds, the parsed document, whether
`saveJsonFile` for the download metadata succeeds (its failures are swallowed), whether
the download succeeds and what content it stores, and the formatted current date used
as the fallback provenance date. -/
structure ScrapeEnv where
  fetchOk : Bool
  pageHtml : Str
  doc : HNode
  saveDlMetaOk : Bool
  downloadOk : Bool
  downloadedContent : Str
  todayLong : Str

/-- The files the scrape run touches, by content (`none` = file absent). -/
structure SState where
  htmlOut : Option Str
  downloadMetaFile : Option CsvDownloadMetadata
  rawCsv : Option Str
deriving DecidableEq

/-- Log entries for the writes the scrape run performs. -/
inductive ScrapeEv where
  | writeHtml
  | writeDownloadMeta (m : CsvDownloadMetadata)
  | download (url : Str)
deriving DecidableEq

/-- Result of a scrape run: process exit code, final filesystem state, write log. -/
structure ScrapeRun where
  exitCode : Nat
  state : SState
  events : List ScrapeEv
deriving DecidableEq

/-- Model of the scrape `main`: fetch the page (any thrown error is caught and the
process exits 1), save the HTML, parse it, find the CSV link (zero or multiple matches
throw), extract the provenance date with the current date as fallback, build the
absolute URL, save the download metadata (failure swallowed by `saveJsonFile`),
always download the raw file, and fail if the downloaded file is missing or empty. -/
def scrapeMain (env : ScrapeEnv) (s : SState) : ScrapeRun :=
  if env.fetchOk = false then { exitCode := 1, state := s, events := [] }
  else
    let s1 : SState := { s with htmlOut := some env.pageHtml }
    let evs1 := [ScrapeEv.writeHtml]
    match findCsvLink env.doc with
    | Except.error _ => { exitCode := 1, state := s1, events := evs1 }
    | Except.ok csvLinkDetails =>
      let updatedDate :=
        (extractUpdateDateFromHtmlTable csvLinkDetails.element.selfTag
          csvLinkDetails.element.chain).getD env.todayLong
      let fullUrl := buildAbsoluteOfcomUrl csvLinkDetails.href
      let downloadMetadata : CsvDownloadMetadata :=
        { url := fullUrl, ofcomReportedLastUpdate := updatedDate,
          linkText := csvLinkDetails.text }
      let s2 := if env.saveDlMetaOk then
          { s1 with downloadMetaFile := some downloadMetadata } else s1
      let evs2 := if env.saveDlMetaOk then
          evs1 ++ [ScrapeEv.writeDownloadMeta downloadMetadata] else evs1
      if env.downloadOk = false then { exitCode := 1, state := s2, events := evs2 }
      else
        let s3 := { s2 with rawCsv := some env.downloadedContent }
        let evs3 := evs2 ++ [ScrapeEv.download fullUrl]
        if env.downloadedContent.isEmpty then { exitCode := 1, state := s3, events := evs3 }
        else { exitCode := 0, state := s3, events := evs3 }

/-! ### The processing stage (src/src/process-csv.ts and src/src/utils.ts) -/

/-- The consolidated metadata record (`ProcessingMetadata` in `src/src/utils.ts`);
the last four fields are optional and copied from the download metadata if present. -/
structure ProcessingMetadata where
  originalCsvSize : Nat
  originalCsvHash : Str
  sortedCsvSize : Nat
  sortedCsvHash : Str
  originalJsonSize : Nat
  originalJsonHash : Str
  sortedJsonSize : Nat
  sortedJsonHash : Str
  recordCount : Nat
  url : Option Str
  ofcomLastUpdate : Option Str
  linkText : Option Str
deriving DecidableEq

/-- External primitives the processing stage uses through their standard interfaces
(out of scope per the spec): the content digest, the CSV parser (`csv-parse` with
`columns: true, skip_empty_lines: true`, which can throw), the CSV serializer
(`csv-stringify` with `header: true` and the given column list) and JSON
serialization of a record array. -/
structure Prims where
  hash : Str → Str
  parseCsv : Str → Except Str (List CsvRecord)
  stringifyCsv : List Str → List CsvRecord → Str
  jsonArr : List CsvRecord → Str

/-- Injected I/O failures for the four writes `processCSV` performs.  `fs.writeFile`
(the sorted CSV) throws on failure; `saveJsonFile` (both JSON artifacts and the
metadata record) catches its own failure and returns `false`, which the callers
ignore. -/
structure Faults where
  failWriteSortedCsv : Bool
  failWriteJson : Bool
  failWriteSortedJson : Bool
  failWriteMeta : Bool
deriving DecidableEq

/-- A run with no injected I/O failures. -/
def noFaults : Faults := ⟨false, false, false, false⟩

/-- The files the processing stage touches, by content.  `none` means the file is
absent.  For the two metadata files the JSON content is modelled structurally:
`some none` is a file that exists but does not parse back into the record
(`loadJsonFile` returns `null` for it), `some (some m)` parses to `m`. -/
structure PState where
  rawCsv : Option Str
  sortedCsv : Option Str
  jsonFile : Option Str
  sortedJson : Option Str
  metadataFile : Option (Option ProcessingMetadata)
  downloadMetaFile : Option (Option CsvDownloadMetadata)
deriving DecidableEq

/-- Model of `fileExistsAndNotEmpty` from `src/src/utils.ts`: the file exists and its
size is positive. -/
def fileExistsAndNotEmpty : Option Str → Bool
  | none => false
  | some c => decide (0 < c.length)

/-- Model of `isProcessingNeeded` (src/src/process-csv.ts lines 28-55): skip only when
the metadata file exists, loads and parses (`loadJsonFile` returns `null`, never
throws, on a missing or unreadable file), its recorded `originalCsvHash` equals the
hash of the current raw file, and the three derived files written next to it all exist
and are non-empty. -/
def isProcessingNeeded (s : PState) (originalCsvHash : Str) : Bool :=
  match s.metadataFile with
  | none => true
  | some none => true
  | some (some existingMetadata) =>
    if existingMetadata.originalCsvHash == originalCsvHash
        && fileExistsAndNotEmpty s.sortedCsv
        && fileExistsAndNotEmpty s.jsonFile
        && fileExistsAndNotEmpty s.sortedJson
    then false
    else true

/-- Log entries for the writes the processing stage performs (a swallowed
`saveJsonFile` failure writes nothing and is not logged). -/
inductive ProcEv where
  | writeSortedCsv (content : Str)
  | writeJson (content : Str)
  | writeSortedJson (content : Str)
  | writeMeta (m : ProcessingMetadata)
deriving DecidableEq

/-- The ways the `try` block of `processCSV` can throw: the raw file vanished, the CSV
parser threw, reading the first record's column names threw (`Object.keys(csvData[0])`
on an empty parse), the sorted-CSV `fs.writeFile` threw, or a later
`calculateFileHash`/`statSync` on a missing artifact threw. -/
inductive PErr where
  | rawMissing
  | parse (msg : Str)
  | emptyRecords
  | writeSortedCsv
  | hashRead
deriving DecidableEq

instance {ε α : Type} [DecidableEq ε] [DecidableEq α] : DecidableEq (Except ε α) :=
  fun x y =>
    match x, y with
    | Except.ok a, Except.ok b =>
      if h : a = b then Decidable.isTrue (by rw [h])
      else Decidable.isFalse (fun hc => h (Except.ok.inj hc))
    | Except.error e, Except.error f =>
      if h : e = f then Decidable.isTrue (by rw [h])
      else Decidable.isFalse (fun hc => h (Except.error.inj hc))
    | Except.ok _, Except.error _ => Decidable.isFalse (fun hc => Except.noConfusion hc)
    | Except.error _, Except.ok _ => Decidable.isFalse (fun hc => Except.noConfusion hc)

/-- Result of `processCSV`: the thrown error or returned metadata, together with the
resulting filesystem state and the log of successful writes. -/
structure ProcCsvResult where
  result : Except PErr ProcessingMetadata
  state : PState
  writes : List ProcEv
deriving DecidableEq

/-- Model of `processCSV` (src/src/process-csv.ts lines 63-152), in source order: read
and parse the raw CSV, take the first record's first column name, sort a copy, write
the sorted CSV (a throw here aborts), write both JSON artifacts via `saveJsonFile`
(failures swallowed), hash and stat the three artifact files as they now are on disk
(throwing if one is missing), build the metadata record - whose `originalCsvHash` is
the hash passed in by `main` - and save it via `saveJsonFile` (failure swallowed). -/
def processCSVm (P : Prims) (F : Faults) (originalCsvHash : Str)
    (downloadMetadata : Option CsvDownloadMetadata) (s : PState) : ProcCsvResult :=
  match s.rawCsv with
  | none => { result := Except.error PErr.rawMissing, state := s, writes := [] }
  | some csvContent =>
    match P.parseCsv csvContent with
    | Except.error e => { result := Except.error (PErr.parse e), state := s, writes := [] }
    | Except.ok csvData =>
      match csvData.head? with
      | none => { result := Except.error PErr.emptyRecords, state := s, writes := [] }
      | some firstRecord =>
        let firstColumnName := (firstRecord.map Prod.fst).head?
        let sortedCsvData := sortRecords firstColumnName csvData
        let sortedCsvContent := P.stringifyCsv (firstRecord.map Prod.fst) sortedCsvData
        if F.failWriteSortedCsv then
          { result := Except.error PErr.writeSortedCsv, state := s, writes := [] }
        else
          let s1 : PState := { s with sortedCsv := some sortedCsvContent }
          let evs1 := [ProcEv.writeSortedCsv sortedCsvContent]
          let jsonContent := P.jsonArr csvData
          let s2 := if F.failWriteJson then s1 else { s1 with jsonFile := some jsonContent }
          let evs2 := if F.failWriteJson then evs1 else evs1 ++ [ProcEv.writeJson jsonContent]
          let sortedJsonContent := P.jsonArr sortedCsvData
          let s3 := if F.failWriteSortedJson then s2
            else { s2 with sortedJson := some sortedJsonContent }
          let evs3 := if F.failWriteSortedJson then evs2
            else evs2 ++ [ProcEv.writeSortedJson sortedJsonContent]
          match s3.sortedCsv, s3.jsonFile, s3.sortedJson with
          | some sortedOnDisk, some jsonOnDisk, some sortedJsonOnDisk =>
            let metadata : ProcessingMetadata :=
              { originalCsvSize := csvContent.length
                originalCsvHash := originalCsvHash
                sortedCsvSize := sortedOnDisk.length
                sortedCsvHash := P.hash sortedOnDisk
                originalJsonSize := jsonOnDisk.length
                originalJsonHash := P.hash jsonOnDisk
                sortedJsonSize := sortedJsonOnDisk.length
                sortedJsonHash := P.hash sortedJsonOnDisk
                recordCount := csvData.length
                url := downloadMetadata.map (fun dm => dm.url)
                ofcomLastUpdate := downloadMetadata.map (fun dm => dm.ofcomReportedLastUpdate)
                linkText := downloadMetadata.map (fun dm => dm.linkText) }
            if F.failWriteMeta then
              { result := Except.ok metadata, state := s3, writes := evs3 }
            else
              { result := Except.ok metadata,
                state := { s3 with metadataFile := some (some metadata) },
                writes := evs3 ++ [ProcEv.writeMeta metadata] }
          | _, _, _ =>
            { result := Except.error PErr.hashRead, state := s3, writes := evs3 }

/-- Which path the processing `main` took: abort because the raw file is missing or
empty, skip because nothing changed, or run `processCSV` (with its outcome). -/
inductive ProcOutcome where
  | abortedNoRaw
  | skipped
  | processed (r : Except PErr ProcessingMetadata)
deriving DecidableEq

/-- Result of a processing run: the decision taken, the process exit code, the final
filesystem state and the log of successful writes. -/
structure ProcRun where
  outcome : ProcOutcome
  exitCode : Nat
  state : PState
  writes : List ProcEv
deriving DecidableEq

/-- Model of `loadJsonFile` on the download-metadata file in the processing `main`:
`null` when the file is missing or unreadable, the parsed record otherwise. -/
def dmOf (s : PState) : Option CsvDownloadMetadata :=
  match s.downloadMetaFile with
  | some (some m) => some m
  | _ => none

/-- Model of the processing `main` (src/src/process-csv.ts lines 157-210): abort with
exit 1 if the raw file is missing or empty; load the download metadata (`null` if
missing or unreadable); hash the raw file; reprocess if `isProcessingNeeded`, exiting 1
when `processCSV` throws; otherwise use the existing files.  The remaining file listing
only reads. -/
def processMain (P : Prims) (F : Faults) (s : PState) : ProcRun :=
  match s.rawCsv with
  | none => { outcome := ProcOutcome.abortedNoRaw, exitCode := 1, state := s, writes := [] }
  | some raw =>
    if raw.isEmpty then
      { outcome := ProcOutcome.abortedNoRaw, exitCode := 1, state := s, writes := [] }
    else
      let downloadMetadata : Option CsvDownloadMetadata := dmOf s
      let originalCsvHash := P.hash raw
      if isProcessingNeeded s originalCsvHash then
        let r := processCSVm P F originalCsvHash downloadMetadata s
        { outcome := ProcOutcome.processed r.result,
          exitCode := match r.result with | Except.ok _ => 0 | Except.error _ => 1,
          state := r.state, writes := r.writes }
      else
        { outcome := ProcOutcome.skipped, exitCode := 0, state := s, writes := [] }

/-! ### Helper definitions for the statements, and concrete fixtures for witnesses -/

/-- The path part of a root-relative or bare-relative href: the href stripped of its
leading `/` when it has one. -/
def stripLeadingSlash (url : Str) : Str :=
  match url with
  | '/' :: rest => rest
  | _ => url

/-- The record `findCsvLink` pushes for a matching anchor. -/
def toDetails (l : LinkCtx) : HtmlLinkDetails :=
  { href := l.href.getD [], text := trimStr l.textC, element := l }

/-- The metadata record a fault-free `processCSV` run produces from raw content `raw`
parsed as `data` (first record `r0`) with raw-file hash `h0`. -/
def procMeta (P : Prims) (h0 : Str) (dm : Option CsvDownloadMetadata) (raw : Str)
    (data : List CsvRecord) (r0 : CsvRecord) : ProcessingMetadata :=
  { originalCsvSize := raw.length
    originalCsvHash := h0
    sortedCsvSize := (P.stringifyCsv (r0.map Prod.fst)
      (sortRecords ((r0.map Prod.fst).head?) data)).length
    sortedCsvHash := P.hash (P.stringifyCsv (r0.map Prod.fst)
      (sortRecords ((r0.map Prod.fst).head?) data))
    originalJsonSize := (P.jsonArr data).length
    originalJsonHash := P.hash (P.jsonArr data)
    sortedJsonSize := (P.jsonArr (sortRecords ((r0.map Prod.fst).head?) data)).length
    sortedJsonHash := P.hash (P.jsonArr (sortRecords ((r0.map Prod.fst).head?) data))
    recordCount := data.length
    url := dm.map (fun x => x.url)
    ofcomLastUpdate := dm.map (fun x => x.ofcomReportedLastUpdate)
    linkText := dm.map (fun x => x.linkText) }

/-- Concrete primitives for witness runs: a prefix-marking digest, a parser that maps
each character of the raw content to a one-column record (and parses `E` to an empty
record list), and always-non-empty serializers. -/
def testPrims : Prims :=
  { hash := fun s => 'h' :: s
    parseCsv := fun c =>
      match c with
      | ['E'] => Except.ok []
      | _ => Except.ok (c.map (fun ch => [(("K".toList), [ch])]))
    stringifyCsv := fun _ data => 's' :: (data.flatMap (fun r => r.flatMap (fun p => p.2)))
    jsonArr := fun data => 'j' :: (data.flatMap (fun r => r.flatMap (fun p => p.2))) }

/-- A fresh working directory holding only a downloaded raw file with content `ba`. -/
def freshState : PState :=
  { rawCsv := some ("ba".toList)
    sortedCsv := none
    jsonFile := none
    sortedJson := none
    metadataFile := none
    downloadMetaFile := none }

/-- The state after one successful processing run on `freshState`. -/
def processedState : PState := (processMain testPrims noFaults freshState).state

/-- The processed state with the sorted CSV artifact corrupted to different, non-empty
content while the raw file is untouched. -/
def corruptedState : PState := { processedState with sortedCsv := some ("Z".toList) }

/-- Fault injection making the `saveJsonFile` call for the original-order JSON artifact
fail (which `saveJsonFile` swallows, returning `false`). -/
def jsonWriteFault : Faults := { noFaults with failWriteJson := true }

/-- A fresh state that additionally has a stale, non-empty JSON artifact left on disk. -/
def staleJsonState : PState := { freshState with jsonFile := some ("stale".toList) }

/-- A concrete anchor document for the link-discovery witness: a single anchor element
whose href contains `AMATEUR` and `.Csv` (matched case-insensitively). -/
def witnessAnchorDoc : HNode :=
  HNode.elem ("A".toList) [(("href".toList), ("x/AMATEUR.Csv".toList))]
    [HNode.text (" dl ".toList)]

/-- The anchor element of the spec's discovery-page scenario. -/
def scenarioAnchor : HNode :=
  HNode.elem ("A".toList) [(("href".toList), ("/files/amateur-callsigns.csv".toList))]
    [HNode.text ("download".toList)]

/-- The table row of the spec's discovery-page scenario:
`<tr><td><a href="/files/amateur-callsigns.csv">download</a></td><td>12 May 2024</td></tr>`. -/
def scenarioRow : HNode :=
  HNode.elem ("TR".toList) []
    [HNode.elem ("TD".toList) [] [scenarioAnchor],
     HNode.elem ("TD".toList) [] [HNode.text ("12 May 2024".toList)]]

/-- A document containing exactly the scenario table row. -/
def scenarioDoc : HNode :=
  HNode.elem ("HTML".toList) [] [HNode.elem ("TABLE".toList) [] [scenarioRow]]

/-- The record set of the spec's sorting example, keyed by a `Callsign` column. -/
def exampleRecords : List CsvRecord :=
  [ [(("Callsign".toList), ("M0ABC".toList))],
    [(("Callsign".toList), ("g1xyz".toList))],
    [(("Callsign".toList), ("A9ZZZ".toList))] ]
/-- A scrape environment for witnesses: page fetch succeeds, the parsed document is
the scenario document, every external operation succeeds. -/
def witnessEnv : ScrapeEnv :=
  { fetchOk := true
    pageHtml := []
    doc := scenarioDoc
    saveDlMetaOk := true
    downloadOk := true
    downloadedContent := ("data".toList)
    todayLong := ("1 January 2026".toList) }

/-- The witness environment with a document containing no anchors at all. -/
def emptyDocEnv : ScrapeEnv := { witnessEnv with doc := HNode.text [] }

/-- An empty working directory for the scrape stage. -/
def emptySState : SState := { htmlOut := none, downloadMetaFile := none, rawCsv := none }

/-- The first cell of the scenario row. -/
def scenarioTd1 : HNode := HNode.elem ("TD".toList) [] [scenarioAnchor]

/-- The table element of the scenario document. -/
def scenarioTable : HNode := HNode.elem ("TABLE".toList) [] [scenarioRow]

/-- The anchor context `findCsvLink` collects for the scenario document. -/
def scenarioCtx : LinkCtx :=
  { href := some ("/files/amateur-callsigns.csv".toList)
    textC := ("download".toList)
    selfTag := tagA
    chain := [scenarioTd1, scenarioRow, scenarioTable, scenarioDoc] }

/-- A state whose raw file is non-empty but parses to zero records under `testPrims`. -/
def emptyParseState : PState := { freshState with rawCsv := some ("E".toList) }

/-- A from-scratch working directory: only the raw file (and optionally the download
metadata file) present. -/
def scratchState (raw : Str) (dl : Option (Option CsvDownloadMetadata)) : PState :=
  { rawCsv := some raw
    sortedCsv := none
    jsonFile := none
    sortedJson := none
    metadataFile := none
    downloadMetaFile := dl }

/-! ### Lemmas about the comparator and the sort -/

theorem charCmp_swap (c d : Char) : (charCmp c d).swap = charCmp d c := by
  unfold charCmp
  rcases Nat.lt_trichotomy c.toNat d.toNat with h | h | h
  · simp [h, Nat.lt_asymm h, Ordering.swap]
  · simp [h, Ordering.swap]
  · simp [h, Nat.lt_asymm h, Ordering.swap]

theorem charCmp_ne_gt (c d : Char) : charCmp c d ≠ Ordering.gt ↔ c.toNat ≤ d.toNat := by
  unfold charCmp
  rcases Nat.lt_trichotomy c.toNat d.toNat with h | h | h
  · simp [h, Nat.lt_asymm h, Nat.le_of_lt h]
  · simp [h]
  · simp [h, Nat.lt_asymm h, not_le.mpr h]

theorem charCmp_eq_eq (c d : Char) : charCmp c d = Ordering.eq ↔ c.toNat = d.toNat := by
  unfold charCmp
  rcases Nat.lt_trichotomy c.toNat d.toNat with h | h | h
  · simp [h, Nat.lt_asymm h, Nat.ne_of_lt h]
  · simp [h]
  · simp [h, Nat.lt_asymm h, Ne.symm (Nat.ne_of_lt h)]

theorem compareStr_swap (a b : Str) : (compareStr a b).swap = compareStr b a := by
  induction a generalizing b with
  | nil => cases b <;> simp [compareStr, Ordering.swap]
  | cons c cs ih =>
    cases b with
    | nil => simp [compareStr, Ordering.swap]
    | cons d ds =>
      simp only [compareStr]
      rw [← charCmp_swap c d, ← ih ds]
      cases charCmp c d <;> simp [Ordering.swap, Ordering.then]

theorem compareStr_trans {a b c : Str} (hab : compareStr a b ≠ Ordering.gt)
    (hbc : compareStr b c ≠ Ordering.gt) : compareStr a c ≠ Ordering.gt := by
  induction a generalizing b c with
  | nil => cases c <;> simp [compareStr]
  | cons x as ih =>
    cases b with
    | nil => simp [compareStr] at hab
    | cons y bs =>
      cases c with
      | nil => simp [compareStr] at hbc
      | cons z cs =>
        simp only [compareStr] at hab hbc ⊢
        have hxyng : charCmp x y ≠ Ordering.gt := by
          intro h
          rw [h] at hab
          simp [Ordering.then] at hab
        have hyzng : charCmp y z ≠ Ordering.gt := by
          intro h
          rw [h] at hbc
          simp [Ordering.then] at hbc
        have h1 : x.toNat ≤ y.toNat := (charCmp_ne_gt x y).mp hxyng
        have h2 : y.toNat ≤ z.toNat := (charCmp_ne_gt y z).mp hyzng
        intro hgoal
        rcases hxz : charCmp x z with _ | _ | _
        · rw [hxz] at hgoal
          simp [Ordering.then] at hgoal
        · have hxz' : x.toNat = z.toNat := (charCmp_eq_eq x z).mp hxz
          have hy1 : x.toNat = y.toNat := by omega
          have hy2 : y.toNat = z.toNat := by omega
          rw [(charCmp_eq_eq x y).mpr hy1] at hab
          rw [(charCmp_eq_eq y z).mpr hy2] at hbc
          rw [hxz] at hgoal
          simp [Ordering.then] at hab hbc hgoal
          exact ih hab hbc hgoal
        · exact ((charCmp_ne_gt x z).mpr (le_trans h1 h2)) hxz

theorem compareStr_total (a b : Str) :
    compareStr a b ≠ Ordering.gt ∨ compareStr b a ≠ Ordering.gt := by
  rcases h : compareStr a b with _ | _ | _
  · left
    simp
  · left
    simp
  · right
    have := compareStr_swap a b
    rw [h] at this
    rw [← this]
    simp [Ordering.swap]

/-- Stability of the sort, stated via filtering: the records whose sort key is any fixed
value `K` appear in the sorted output in exactly their original order. -/
theorem sortRecords_stable (k : Option Str) (l : List CsvRecord) (K : Str) :
    (sortRecords k l).filter (fun r => sortKey k r == K)
      = l.filter (fun r => sortKey k r == K) := by
  classical
  have hpair : (l.filter (fun r => sortKey k r == K)).Pairwise (recLe k) := by
    apply List.pairwise_of_forall_mem_list
    intro a ha b hb
    have hA : sortKey k a = K := by
      have := (List.mem_filter.mp ha).2
      simpa using this
    have hB : sortKey k b = K := by
      have := (List.mem_filter.mp hb).2
      simpa using this
    unfold recLe
    rw [hA, hB]
    rcases compareStr_total K K with h | h <;> exact h
  have hsub : List.Sublist (l.filter (fun r => sortKey k r == K))
      (List.insertionSort (recLe k) l) :=
    List.sublist_insertionSort hpair (List.filter_sublist l)
  have hsub2 : List.Sublist (l.filter (fun r => sortKey k r == K))
      ((List.insertionSort (recLe k) l).filter (fun r => sortKey k r == K)) := by
    have h2 := hsub.filter (fun r => sortKey k r == K)
    have hfun : (fun a => sortKey k a == K && sortKey k a == K)
        = (fun r : CsvRecord => sortKey k r == K) := by
      funext a
      exact Bool.and_self _
    rwa [List.filter_filter, hfun] at h2
  have hperm : List.Perm ((List.insertionSort (recLe k) l).filter
      (fun r => sortKey k r == K)) (l.filter (fun r => sortKey k r == K)) :=
    (List.perm_insertionSort (recLe k) l).filter _
  exact ((hsub2.eq_of_length hperm.length_eq.symm).symm)

/-- The sorted copy is sorted with respect to the comparator. -/
theorem sortRecords_sorted (k : Option Str) (l : List CsvRecord) :
    (sortRecords k l).Sorted (recLe k) := by
  haveI : IsTotal CsvRecord (recLe k) := ⟨fun a b => compareStr_total _ _⟩
  haveI : IsTrans CsvRecord (recLe k) := ⟨fun a b c hab hbc => compareStr_trans hab hbc⟩
  exact List.sorted_insertionSort (recLe k) l

/-- The sorted copy is a permutation of the input (same records, reordered). -/
theorem sortRecords_perm (k : Option Str) (l : List CsvRecord) :
    List.Perm (sortRecords k l) l :=
  List.perm_insertionSort (recLe k) l

/-! ### Unfolding lemmas for the processing run -/

theorem isEmpty_eq_false_of_ne {l : Str} (h : l ≠ []) : l.isEmpty = false := by
  cases l with
  | nil => exact absurd rfl h
  | cons a t => rfl

/-- The skip condition of `isProcessingNeeded`, spelled out. -/
theorem isProcessingNeeded_false_iff (s : PState) (h0 : Str) :
    isProcessingNeeded s h0 = false ↔
      ∃ m, s.metadataFile = some (some m) ∧ m.originalCsvHash = h0 ∧
        fileExistsAndNotEmpty s.sortedCsv = true ∧
        fileExistsAndNotEmpty s.jsonFile = true ∧
        fileExistsAndNotEmpty s.sortedJson = true := by
  rcases hm : s.metadataFile with _ | mo
  · simp [isProcessingNeeded, hm]
  · rcases mo with _ | m
    · simp [isProcessingNeeded, hm]
    · by_cases hc : m.originalCsvHash = h0 ∧ fileExistsAndNotEmpty s.sortedCsv = true ∧
        fileExistsAndNotEmpty s.jsonFile = true ∧ fileExistsAndNotEmpty s.sortedJson = true
      · obtain ⟨h1, h2, h3, h4⟩ := hc
        simp [isProcessingNeeded, hm, h1, h2, h3, h4]
      · constructor
        · intro hfalse
          exfalso
          apply hc
          by_cases h1 : m.originalCsvHash = h0 <;>
            by_cases h2 : fileExistsAndNotEmpty s.sortedCsv = true <;>
              by_cases h3 : fileExistsAndNotEmpty s.jsonFile = true <;>
                by_cases h4 : fileExistsAndNotEmpty s.sortedJson = true <;>
                  simp_all [isProcessingNeeded, hm]
        · intro hex
          obtain ⟨m2, hm2, rest⟩ := hex
          have hmm : m = m2 := by
            simp only [hm, Option.some.injEq] at hm2
            exact hm2
          subst hmm
          exact absurd rest hc

theorem processCSVm_ok_eq (P : Prims) (h0 : Str) (dm : Option CsvDownloadMetadata)
    (s : PState) (raw : Str) (data : List CsvRecord) (r0 : CsvRecord)
    (hraw : s.rawCsv = some raw) (hparse : P.parseCsv raw = Except.ok data)
    (hhead : data.head? = some r0) :
    processCSVm P noFaults h0 dm s =
      { result := Except.ok (procMeta P h0 dm raw data r0)
        state := { s with
          sortedCsv := some (P.stringifyCsv (r0.map Prod.fst)
            (sortRecords ((r0.map Prod.fst).head?) data))
          jsonFile := some (P.jsonArr data)
          sortedJson := some (P.jsonArr (sortRecords ((r0.map Prod.fst).head?) data))
          metadataFile := some (some (procMeta P h0 dm raw data r0)) }
        writes := [
          ProcEv.writeSortedCsv (P.stringifyCsv (r0.map Prod.fst)
            (sortRecords ((r0.map Prod.fst).head?) data)),
          ProcEv.writeJson (P.jsonArr data),
          ProcEv.writeSortedJson (P.jsonArr (sortRecords ((r0.map Prod.fst).head?) data)),
          ProcEv.writeMeta (procMeta P h0 dm raw data r0)] } := by
  simp [processCSVm, hraw, hparse, hhead, noFaults, procMeta]

theorem processMain_skip_eq (P : Prims) (F : Faults) (s : PState) (raw : Str)
    (hraw : s.rawCsv = some raw) (hne : raw ≠ [])
    (hskip : isProcessingNeeded s (P.hash raw) = false) :
    processMain P F s
      = { outcome := ProcOutcome.skipped, exitCode := 0, state := s, writes := [] } := by
  simp [processMain, hraw, isEmpty_eq_false_of_ne hne, hskip]

theorem processMain_processed_eq (P : Prims) (F : Faults) (s : PState) (raw : Str)
    (hraw : s.rawCsv = some raw) (hne : raw ≠ [])
    (hneed : isProcessingNeeded s (P.hash raw) = true) :
    processMain P F s
      = { outcome := ProcOutcome.processed (processCSVm P F (P.hash raw) (dmOf s) s).result
          exitCode := match (processCSVm P F (P.hash raw) (dmOf s) s).result with
            | Except.ok _ => 0
            | Except.error _ => 1
          state := (processCSVm P F (P.hash raw) (dmOf s) s).state
          writes := (processCSVm P F (P.hash raw) (dmOf s) s).writes } := by
  simp [processMain, hraw, isEmpty_eq_false_of_ne hne, hneed]

/-! ### Claim theorems -/

/-- C2: for every hash of the current raw file, the processing stage skips reprocessing
exactly when a prior processing-metadata record exists and is readable, its recorded
`originalCsvHash` equals the current raw-file hash, and the four artifact files (raw
CSV, sorted CSV, JSON, sorted JSON) all exist and are non-empty; any hash mismatch,
missing derived file or unreadable metadata record leads to full reprocessing (the
`processCSV` path) instead of aborting. -/
theorem C2_skip_characterization (P : Prims) (F : Faults) (s : PState) (raw : Str)
    (hraw : s.rawCsv = some raw) (hne : raw ≠ []) :
    ((processMain P F s).outcome = ProcOutcome.skipped ↔
      (∃ m, s.metadataFile = some (some m) ∧ m.originalCsvHash = P.hash raw) ∧
        fileExistsAndNotEmpty s.rawCsv = true ∧
        fileExistsAndNotEmpty s.sortedCsv = true ∧
        fileExistsAndNotEmpty s.jsonFile = true ∧
        fileExistsAndNotEmpty s.sortedJson = true) ∧
    ((processMain P F s).outcome = ProcOutcome.skipped ∨
      ∃ r, (processMain P F s).outcome = ProcOutcome.processed r) := by
  have hrawne : fileExistsAndNotEmpty s.rawCsv = true := by
    simp [fileExistsAndNotEmpty, hraw, List.length_pos, hne]
  cases hneed : isProcessingNeeded s (P.hash raw) with
  | false =>
    rw [processMain_skip_eq P F s raw hraw hne hneed]
    obtain ⟨m, hm, hhash, h2, h3, h4⟩ := (isProcessingNeeded_false_iff s (P.hash raw)).mp hneed
    constructor
    · constructor
      · intro _
        exact ⟨⟨m, hm, hhash⟩, hrawne, h2, h3, h4⟩
      · intro _
        rfl
    · left
      rfl
  | true =>
    rw [processMain_processed_eq P F s raw hraw hne hneed]
    constructor
    · constructor
      · intro habs
        exact absurd habs (by simp)
      · intro hrhs
        obtain ⟨⟨m, hm, hhash⟩, _, h2, h3, h4⟩ := hrhs
        have : isProcessingNeeded s (P.hash raw) = false :=
          (isProcessingNeeded_false_iff s (P.hash raw)).mpr ⟨m, hm, hhash, h2, h3, h4⟩
        rw [hneed] at this
        exact absurd this (by simp)
    · right
      exact ⟨_, rfl⟩

/-- C2 witness: on the state left by one successful processing run the next run skips,
and the skip conditions of the theorem hold there concretely. -/
theorem C2_skip_characterization_witness :
    ((processMain testPrims noFaults processedState).outcome = ProcOutcome.skipped ↔
      (∃ m, processedState.metadataFile = some (some m)
          ∧ m.originalCsvHash = testPrims.hash ("ba".toList)) ∧
        fileExistsAndNotEmpty processedState.rawCsv = true ∧
        fileExistsAndNotEmpty processedState.sortedCsv = true ∧
        fileExistsAndNotEmpty processedState.jsonFile = true ∧
        fileExistsAndNotEmpty processedState.sortedJson = true) ∧
    ((processMain testPrims noFaults processedState).outcome = ProcOutcome.skipped ∨
      ∃ r, (processMain testPrims noFaults processedState).outcome
        = ProcOutcome.processed r) :=
  C2_skip_characterization testPrims noFaults processedState ("ba".toList)
    (by decide) (by decide)

/-- C6: for every href string, if the href already matches the `^https?:\/\/` scheme
test the normalization returns it unchanged; otherwise (root-relative or bare-relative
href) it returns the base origin, one `/` separator and the href's path. -/
theorem C6_url_normalization (url : Str) :
    (hasHttpScheme url = true → buildAbsoluteOfcomUrl url = url) ∧
    (hasHttpScheme url = false →
      buildAbsoluteOfcomUrl url = OFCOM_BASE_URL ++ '/' :: stripLeadingSlash url) := by
  constructor
  · intro h
    simp [buildAbsoluteOfcomUrl, h]
  · intro h
    simp only [buildAbsoluteOfcomUrl, h, Bool.false_eq_true, if_false]
    cases url with
    | nil => simp [strStartsWith, stripLeadingSlash]
    | cons c rest =>
      by_cases hc : c = '/'
      · subst hc
        simp [strStartsWith, stripLeadingSlash]
      · simp [strStartsWith, stripLeadingSlash, hc]

/-- C6 witness: both branches at concrete hrefs - an absolute URL passes through, a
bare-relative path gets exactly one separator appended to the origin. -/
theorem C6_url_normalization_witness :
    buildAbsoluteOfcomUrl ("http://a/b.csv".toList) = ("http://a/b.csv".toList) ∧
    buildAbsoluteOfcomUrl ("files/x.csv".toList)
      = OFCOM_BASE_URL ++ '/' :: stripLeadingSlash ("files/x.csv".toList) :=
  ⟨(C6_url_normalization ("http://a/b.csv".toList)).1 (by decide),
   (C6_url_normalization ("files/x.csv".toList)).2 (by decide)⟩

/-- C5: the sort compares first-column values case-insensitively (the comparator
`recLe` lowercases both sides before the locale comparison), treats missing values as
empty string, is stable for ties, produces a permuted copy while the original-order
collection remains available (both collections are serialized by `processCSV`), and
orders the example keys `M0ABC`, `g1xyz`, `A9ZZZ` as `A9ZZZ`, `g1xyz`, `M0ABC`. -/
theorem C5_sorting_contract (k : Str) (l : List CsvRecord) :
    (sortRecords (some k) l).Sorted (recLe (some k)) ∧
    (∀ r : CsvRecord, r.lookup k = none → sortKey (some k) r = []) ∧
    (∀ K : Str, (sortRecords (some k) l).filter (fun r => sortKey (some k) r == K)
        = l.filter (fun r => sortKey (some k) r == K)) ∧
    List.Perm (sortRecords (some k) l) l ∧
    (∀ (P : Prims) (h0 : Str) (dm : Option CsvDownloadMetadata) (s : PState)
      (raw : Str) (data : List CsvRecord) (r0 : CsvRecord),
      s.rawCsv = some raw → P.parseCsv raw = Except.ok data → data.head? = some r0 →
        (processCSVm P noFaults h0 dm s).state.jsonFile = some (P.jsonArr data) ∧
        (processCSVm P noFaults h0 dm s).state.sortedJson
          = some (P.jsonArr (sortRecords ((r0.map Prod.fst).head?) data))) ∧
    sortRecords (some ("Callsign".toList)) exampleRecords
      = [ [(("Callsign".toList), ("A9ZZZ".toList))],
          [(("Callsign".toList), ("g1xyz".toList))],
          [(("Callsign".toList), ("M0ABC".toList))] ] := by
  refine ⟨sortRecords_sorted _ _, ?_, fun K => sortRecords_stable _ _ K,
    sortRecords_perm _ _, ?_, by decide⟩
  · intro r h
    simp [sortKey, getVal, h, toLowerStr]
  · intro P h0 dm s raw data r0 hraw hparse hhead
    rw [processCSVm_ok_eq P h0 dm s raw data r0 hraw hparse hhead]
    exact ⟨rfl, rfl⟩

/-- C5 witness: a record without the sort column gets the empty sort key, and a
concrete fault-free processing run serializes the original-order record set. -/
theorem C5_sorting_contract_witness :
    sortKey (some ("Callsign".toList)) [(("Name".toList), ("Alice".toList))] = [] ∧
    (processCSVm testPrims noFaults ("x".toList) none freshState).state.jsonFile
      = some (testPrims.jsonArr
          [[(("K".toList), ("b".toList))], [(("K".toList), ("a".toList))]]) :=
  ⟨(C5_sorting_contract ("Callsign".toList) []).2.1 _ (by decide),
   ((C5_sorting_contract ("Callsign".toList) []).2.2.2.2.1 testPrims ("x".toList) none
      freshState ("ba".toList)
      [[(("K".toList), ("b".toList))], [(("K".toList), ("a".toList))]]
      [(("K".toList), ("b".toList))] (by decide) (by decide) (by decide)).1⟩

/-! ### Lemmas about the scrape run -/

theorem findAncestorRow_eq_find (selfTag : Str) (chain : List HNode) :
    findAncestorRow selfTag chain
      = if selfTag == tagTR then none
        else chain.find? (fun n => n.isTag tagTR) := by
  unfold findAncestorRow
  have hwalk : ∀ ch : List HNode,
      findAncestorRow.walkUp ch = ch.find? (fun n => n.isTag tagTR) := by
    intro ch
    induction ch with
    | nil => rfl
    | cons n rest ih =>
      by_cases hn : n.isTag tagTR = true
      · have h1 : List.find? (fun x => x.isTag tagTR) (n :: rest) = some n :=
          List.find?_cons_of_pos _ hn
        rw [h1]
        simp [findAncestorRow.walkUp, hn]
      · have h1 : List.find? (fun x => x.isTag tagTR) (n :: rest)
            = List.find? (fun x => x.isTag tagTR) rest :=
          List.find?_cons_of_neg _ hn
        rw [h1]
        rw [Bool.not_eq_true] at hn
        simp [findAncestorRow.walkUp, hn, ih]
  rw [hwalk]

theorem extract_eq_some_iff (selfTag : Str) (chain : List HNode) (d : Str) :
    extractUpdateDateFromHtmlTable selfTag chain = some d ↔
      ∃ row, findAncestorRow selfTag chain = some row ∧ 1 < (tdCells row).length ∧
        d = trimStr (HNode.textContent ((tdCells row).getD 1 (HNode.text []))) ∧
        d ≠ [] := by
  unfold extractUpdateDateFromHtmlTable
  cases hrow : findAncestorRow selfTag chain with
  | none => simp
  | some row =>
    simp only [Option.some.injEq, exists_eq_left']
    by_cases hlen : 1 < (tdCells row).length
    · rw [if_pos hlen]
      by_cases he :
          (trimStr (HNode.textContent ((tdCells row).getD 1 (HNode.text [])))).isEmpty = true
      · rw [if_pos he]
        constructor
        · intro h
          exact absurd h (by simp)
        · rintro ⟨-, hdval, hdne⟩
          rw [List.isEmpty_iff] at he
          exact absurd (hdval.trans he) hdne
      · rw [if_neg he]
        constructor
        · intro h
          refine ⟨hlen, (Option.some.inj h).symm, ?_⟩
          intro habs
          have ht : trimStr (HNode.textContent ((tdCells row).getD 1 (HNode.text []))) = [] :=
            (Option.some.inj h).trans habs
          rw [ht] at he
          simp at he
        · rintro ⟨-, hdval, -⟩
          rw [hdval]
    · rw [if_neg hlen]
      constructor
      · intro h
        exact absurd h (by simp)
      · rintro ⟨hlen2, -, -⟩
        exact absurd hlen2 hlen

/-- The exit code of a scrape run depends only on the fetch, the link search, the
download and the downloaded content - in particular not on the date extraction. -/
theorem scrapeMain_exitCode_eq (env : ScrapeEnv) (s : SState) :
    (scrapeMain env s).exitCode
      = if env.fetchOk = false then 1
        else match findCsvLink env.doc with
          | Except.error _ => 1
          | Except.ok _ =>
            if env.downloadOk = false then 1
            else if env.downloadedContent.isEmpty then 1
            else 0 := by
  by_cases hf : env.fetchOk = false
  · simp [scrapeMain, hf]
  · cases hl : findCsvLink env.doc with
    | error e => simp [scrapeMain, hf, hl]
    | ok d =>
      by_cases hd : env.downloadOk = false
      · simp [scrapeMain, hf, hl, hd]
      · by_cases hc : env.downloadedContent.isEmpty = true
        · simp [scrapeMain, hf, hl, hd, hc]
        · simp [scrapeMain, hf, hl, hd, hc]

/-- On the success path of link discovery the download metadata written to disk uses
the extracted date with the current formatted date as fallback. -/
theorem scrapeMain_downloadMeta (env : ScrapeEnv) (s : SState) (d : HtmlLinkDetails)
    (hf : env.fetchOk = true) (hl : findCsvLink env.doc = Except.ok d)
    (hs : env.saveDlMetaOk = true) :
    (scrapeMain env s).state.downloadMetaFile
      = some { url := buildAbsoluteOfcomUrl d.href
               ofcomReportedLastUpdate := (extractUpdateDateFromHtmlTable
                 d.element.selfTag d.element.chain).getD env.todayLong
               linkText := d.text } := by
  by_cases hd : env.downloadOk = false
  · simp [scrapeMain, hf, hl, hs, hd]
  · by_cases hc : env.downloadedContent.isEmpty = true
    · simp [scrapeMain, hf, hl, hs, hd, hc]
    · simp [scrapeMain, hf, hl, hs, hd, hc]

/-- C7: date extraction walks to the nearest strict-ancestor table row (`find?` over
the ancestor chain); it returns a date exactly when such a row exists, has at least two
`td` cells, and the second cell's trimmed text is non-empty; the caller substitutes the
formatted current date when extraction returns nothing; and the run's exit code never
depends on the extraction result. -/
theorem C7_date_extraction (selfTag : Str) (chain : List HNode) :
    (findAncestorRow selfTag chain
        = if selfTag == tagTR then none else chain.find? (fun n => n.isTag tagTR)) ∧
    (∀ d, extractUpdateDateFromHtmlTable selfTag chain = some d ↔
      ∃ row, findAncestorRow selfTag chain = some row ∧ 1 < (tdCells row).length ∧
        d = trimStr (HNode.textContent ((tdCells row).getD 1 (HNode.text []))) ∧
        d ≠ []) ∧
    (∀ (env : ScrapeEnv) (s : SState) (d : HtmlLinkDetails),
      env.fetchOk = true → findCsvLink env.doc = Except.ok d → env.saveDlMetaOk = true →
      (scrapeMain env s).state.downloadMetaFile
        = some { url := buildAbsoluteOfcomUrl d.href
                 ofcomReportedLastUpdate := (extractUpdateDateFromHtmlTable
                   d.element.selfTag d.element.chain).getD env.todayLong
                 linkText := d.text }) ∧
    (∀ (env : ScrapeEnv) (s : SState),
      (scrapeMain env s).exitCode
        = if env.fetchOk = false then 1
          else match findCsvLink env.doc with
            | Except.error _ => 1
            | Except.ok _ =>
              if env.downloadOk = false then 1
              else if env.downloadedContent.isEmpty then 1 else 0) :=
  ⟨findAncestorRow_eq_find selfTag chain,
   fun d => extract_eq_some_iff selfTag chain d,
   fun env s d hf hl hs => scrapeMain_downloadMeta env s d hf hl hs,
   fun env s => scrapeMain_exitCode_eq env s⟩

/-- C7 witness: on the spec's scenario row the extracted date is `12 May 2024`, and the
scrape run writes it into the download metadata. -/
theorem C7_date_extraction_witness :
    extractUpdateDateFromHtmlTable tagA [scenarioTd1, scenarioRow, scenarioTable, scenarioDoc]
      = some ("12 May 2024".toList) ∧
    (scrapeMain witnessEnv emptySState).state.downloadMetaFile
      = some { url := buildAbsoluteOfcomUrl ("/files/amateur-callsigns.csv".toList)
               ofcomReportedLastUpdate := ("12 May 2024".toList)
               linkText := ("download".toList) } := by
  constructor
  · exact ((C7_date_extraction tagA
        [scenarioTd1, scenarioRow, scenarioTable, scenarioDoc]).2.1
        ("12 May 2024".toList)).mpr ⟨scenarioRow, rfl, by decide, by decide, by decide⟩
  · have h := (C7_date_extraction tagA []).2.2.1 witnessEnv emptySState
      (toDetails scenarioCtx) rfl rfl rfl
    rw [h]
    decide

theorem filterMap_toDetails (xs : List LinkCtx) :
    xs.filterMap (fun l =>
        if linkMatches l then
          some ({ href := l.href.getD [], text := trimStr l.textC, element := l }
            : HtmlLinkDetails)
        else none)
      = (xs.filter linkMatches).map toDetails := by
  induction xs with
  | nil => rfl
  | cons x rest ih =>
    by_cases hx : linkMatches x = true
    · simp [List.filterMap_cons, List.filter_cons, hx, ih, toDetails]
    · simp [List.filterMap_cons, List.filter_cons, hx, ih]

theorem findCsvLink_eq (doc : HNode) :
    findCsvLink doc =
      match (documentAnchors doc).filter linkMatches with
      | [] => Except.error FindErr.notFound
      | [l] => Except.ok (toDetails l)
      | ls => Except.error (FindErr.multipleFound ls.length) := by
  unfold findCsvLink
  rw [filterMap_toDetails]
  cases h : (documentAnchors doc).filter linkMatches with
  | nil => simp
  | cons a t =>
    cases t with
    | nil => simp
    | cons b t2 => simp

/-- C1: link discovery succeeds exactly when exactly one anchor's href matches the
case-insensitive `amateur` and `.csv` filter; on success it returns that link's href as
found together with its trimmed display text; zero matches give the not-found error,
two or more the ambiguous-result error, and on any failure the run downloads nothing. -/
theorem C1_link_discovery (doc : HNode) :
    ((∃ d, findCsvLink doc = Except.ok d) ↔
      ((documentAnchors doc).filter linkMatches).length = 1) ∧
    (∀ l, (documentAnchors doc).filter linkMatches = [l] →
      findCsvLink doc = Except.ok
        { href := l.href.getD [], text := trimStr l.textC, element := l }) ∧
    ((documentAnchors doc).filter linkMatches = [] →
      findCsvLink doc = Except.error FindErr.notFound) ∧
    (2 ≤ ((documentAnchors doc).filter linkMatches).length →
      findCsvLink doc = Except.error
        (FindErr.multipleFound ((documentAnchors doc).filter linkMatches).length)) ∧
    (∀ (env : ScrapeEnv) (s : SState), env.doc = doc →
      (∀ d, findCsvLink doc ≠ Except.ok d) →
      ∀ u, ScrapeEv.download u ∉ (scrapeMain env s).events) := by
  refine ⟨?_, ?_, ?_, ?_, ?_⟩
  · rw [findCsvLink_eq]
    cases h : (documentAnchors doc).filter linkMatches with
    | nil =>
      simp
    | cons a t =>
      cases t with
      | nil => simp [toDetails]
      | cons b t2 =>
        constructor
        · intro hex
          obtain ⟨d, hd⟩ := hex
          exact absurd hd (by simp)
        · intro hlen
          simp at hlen
  · intro l hl
    rw [findCsvLink_eq, hl]
    rfl
  · intro hnil
    rw [findCsvLink_eq, hnil]
  · intro hlen
    rw [findCsvLink_eq]
    cases h : (documentAnchors doc).filter linkMatches with
    | nil =>
      rw [h] at hlen
      simp at hlen
    | cons a t =>
      cases t with
      | nil =>
        rw [h] at hlen
        simp at hlen
      | cons b t2 =>
        rw [h] at hlen
  · intro env s hdoc hne u
    cases hfl : findCsvLink doc with
    | ok d => exact absurd hfl (hne d)
    | error e =>
      by_cases hf : env.fetchOk = false
      · simp [scrapeMain, hf]
      · rw [← hdoc] at hfl
        simp [scrapeMain, hf, hfl]

/-- C1 witness: a document whose single anchor has href `x/AMATEUR.Csv` is discovered
with the href as found and trimmed text; an anchor-free document yields the not-found
error and its scrape run performs no download. -/
theorem C1_link_discovery_witness :
    findCsvLink witnessAnchorDoc = Except.ok
      { href := (some ("x/AMATEUR.Csv".toList)).getD []
        text := trimStr (" dl ".toList)
        element := ⟨some ("x/AMATEUR.Csv".toList), (" dl ".toList), ("A".toList), []⟩ } ∧
    findCsvLink (HNode.text []) = Except.error FindErr.notFound ∧
    (∀ u, ScrapeEv.download u ∉ (scrapeMain emptyDocEnv emptySState).events) := by
  refine ⟨(C1_link_discovery witnessAnchorDoc).2.1 _ rfl,
    (C1_link_discovery (HNode.text [])).2.2.1 rfl,
    fun u => (C1_link_discovery (HNode.text [])).2.2.2.2 emptyDocEnv emptySState rfl ?_ u⟩
  intro d hd
  have he : findCsvLink (HNode.text []) = Except.error FindErr.notFound := rfl
  rw [he] at hd
  exact Except.noConfusion hd

theorem processCSVm_state_rawCsv (P : Prims) (F : Faults) (h0 : Str)
    (dm : Option CsvDownloadMetadata) (s : PState) :
    (processCSVm P F h0 dm s).state.rawCsv = s.rawCsv := by
  obtain ⟨f1, f2, f3, f4⟩ := F
  rcases hr : s.rawCsv with _ | raw
  · simp [processCSVm, hr]
  · rcases hp : P.parseCsv raw with e | data
    · simp [processCSVm, hr, hp]
    · rcases hd : data.head? with _ | r0
      · simp [processCSVm, hr, hp, hd]
      · rcases hj : s.jsonFile with _ | jc0 <;> rcases hsj : s.sortedJson with _ | sj0 <;>
          cases f1 <;> cases f2 <;> cases f3 <;> cases f4 <;>
          simp [processCSVm, hr, hp, hd, hj, hsj]

theorem processCSVm_writeMeta_hash (P : Prims) (F : Faults) (h0 : Str)
    (dm : Option CsvDownloadMetadata) (s : PState) (m : ProcessingMetadata)
    (h : ProcEv.writeMeta m ∈ (processCSVm P F h0 dm s).writes) :
    m.originalCsvHash = h0 := by
  obtain ⟨f1, f2, f3, f4⟩ := F
  rcases hr : s.rawCsv with _ | raw
  · simp [processCSVm, hr] at h
  · rcases hp : P.parseCsv raw with e | data
    · simp [processCSVm, hr, hp] at h
    · rcases hd : data.head? with _ | r0
      · simp [processCSVm, hr, hp, hd] at h
      · rcases hj : s.jsonFile with _ | jc0 <;> rcases hsj : s.sortedJson with _ | sj0 <;>
          cases f1 <;> cases f2 <;> cases f3 <;> cases f4 <;>
          simp [processCSVm, hr, hp, hd, hj, hsj] at h <;>
          simp [h]

/-- C8: whenever a `ProcessingMetadata` record is written, its `originalCsvHash` equals
the digest of the raw file on disk at the moment of the write (the run never rewrites
the raw file, so the raw content at write time is the content that was hashed). -/
theorem C8_metadata_hash_invariant (P : Prims) (F : Faults) (s : PState)
    (m : ProcessingMetadata) (h : ProcEv.writeMeta m ∈ (processMain P F s).writes) :
    ∃ raw, s.rawCsv = some raw ∧ (processMain P F s).state.rawCsv = some raw ∧
      m.originalCsvHash = P.hash raw := by
  rcases hr : s.rawCsv with _ | raw
  · simp [processMain, hr] at h
  · by_cases hne : raw = []
    · subst hne
      simp [processMain, hr] at h
    · by_cases hneed : isProcessingNeeded s (P.hash raw) = true
      · rw [processMain_processed_eq P F s raw hr hne hneed] at h ⊢
        refine ⟨raw, rfl, ?_, ?_⟩
        · rw [processCSVm_state_rawCsv]
          exact hr
        · exact processCSVm_writeMeta_hash P F (P.hash raw) (dmOf s) s m h
      · rw [Bool.not_eq_true] at hneed
        rw [processMain_skip_eq P F s raw hr hne hneed] at h
        simp at h

/-- C8 witness: the metadata record written by a concrete fault-free run carries the
digest of the raw file on disk. -/
theorem C8_metadata_hash_invariant_witness :
    ∃ raw, freshState.rawCsv = some raw ∧
      (processMain testPrims noFaults freshState).state.rawCsv = some raw ∧
      (procMeta testPrims ("hba".toList) none ("ba".toList)
        [[(("K".toList), ("b".toList))], [(("K".toList), ("a".toList))]]
        [(("K".toList), ("b".toList))]).originalCsvHash = testPrims.hash raw :=
  C8_metadata_hash_invariant testPrims noFaults freshState
    (procMeta testPrims ("hba".toList) none ("ba".toList)
      [[(("K".toList), ("b".toList))], [(("K".toList), ("a".toList))]]
      [(("K".toList), ("b".toList))]) (by decide)

theorem fileExistsAndNotEmpty_some_iff (c : Str) :
    fileExistsAndNotEmpty (some c) = true ↔ c ≠ [] := by
  simp [fileExistsAndNotEmpty, List.length_pos]

/-- C10: when the raw file is non-empty but the parse yields zero records, `processCSV`
throws while reading the first record's column names, before any artifact write; if
processing is needed the run exits 1 having written nothing. -/
theorem C10_empty_parse_aborts (P : Prims) (F : Faults) (s : PState) (raw : Str)
    (hraw : s.rawCsv = some raw) (hne : raw ≠ [])
    (hparse : P.parseCsv raw = Except.ok []) :
    (∀ (h0 : Str) (dm : Option CsvDownloadMetadata),
      (processCSVm P F h0 dm s).result = Except.error PErr.emptyRecords ∧
      (processCSVm P F h0 dm s).writes = []) ∧
    (isProcessingNeeded s (P.hash raw) = true →
      (processMain P F s).exitCode = 1 ∧ (processMain P F s).writes = []) := by
  have hcsv : ∀ (h0 : Str) (dm : Option CsvDownloadMetadata), processCSVm P F h0 dm s
      = { result := Except.error PErr.emptyRecords, state := s, writes := [] } := by
    intro h0 dm
    simp [processCSVm, hraw, hparse]
  constructor
  · intro h0 dm
    rw [hcsv]
    exact ⟨rfl, rfl⟩
  · intro hneed
    rw [processMain_processed_eq P F s raw hraw hne hneed, hcsv]
    exact ⟨rfl, rfl⟩

/-- C10 witness: a concrete zero-record parse makes `processCSV` throw and the run exit
1 with no writes. -/
theorem C10_empty_parse_aborts_witness :
    (processCSVm testPrims noFaults ("x".toList) none emptyParseState).result
      = Except.error PErr.emptyRecords ∧
    (processMain testPrims noFaults emptyParseState).exitCode = 1 ∧
    (processMain testPrims noFaults emptyParseState).writes = [] :=
  ⟨((C10_empty_parse_aborts testPrims noFaults emptyParseState ("E".toList)
      (by decide) (by decide) (by decide)).1 ("x".toList) none).1,
   (C10_empty_parse_aborts testPrims noFaults emptyParseState ("E".toList)
      (by decide) (by decide) (by decide)).2 (by decide)⟩

/-- C3: running the processing stage a second time on the state left by a successful
run (with no injected I/O faults, and serializers that never produce empty files)
performs no writes and leaves the filesystem unchanged. -/
theorem C3_idempotent (P : Prims) (s : PState)
    (hcsv : ∀ (cols : List Str) (data : List CsvRecord), P.stringifyCsv cols data ≠ [])
    (hjson : ∀ data : List CsvRecord, P.jsonArr data ≠ [])
    (hexit : (processMain P noFaults s).exitCode = 0) :
    (processMain P noFaults ((processMain P noFaults s).state)).writes = [] ∧
    (processMain P noFaults ((processMain P noFaults s).state)).state
      = (processMain P noFaults s).state := by
  rcases hr : s.rawCsv with _ | raw
  · simp [processMain, hr] at hexit
  · by_cases hne : raw = []
    · subst hne
      simp [processMain, hr] at hexit
    · by_cases hneed : isProcessingNeeded s (P.hash raw) = true
      · rw [processMain_processed_eq P noFaults s raw hr hne hneed] at hexit ⊢
        rcases hp : P.parseCsv raw with e | data
        · have hres : processCSVm P noFaults (P.hash raw) (dmOf s) s
              = { result := Except.error (PErr.parse e), state := s, writes := [] } := by
            simp [processCSVm, hr, hp]
          rw [hres] at hexit
          simp at hexit
        · rcases hd : data.head? with _ | r0
          · have hres : processCSVm P noFaults (P.hash raw) (dmOf s) s
                = { result := Except.error PErr.emptyRecords, state := s, writes := [] } := by
              simp [processCSVm, hr, hp, hd]
            rw [hres] at hexit
            simp at hexit
          · have hs1raw : ((processCSVm P noFaults (P.hash raw) (dmOf s) s).state).rawCsv
                = some raw := by
              rw [processCSVm_state_rawCsv]
              exact hr
            have hskip : isProcessingNeeded
                ((processCSVm P noFaults (P.hash raw) (dmOf s) s).state) (P.hash raw)
                = false := by
              rw [processCSVm_ok_eq P (P.hash raw) (dmOf s) s raw data r0 hr hp hd]
              apply (isProcessingNeeded_false_iff _ _).mpr
              refine ⟨procMeta P (P.hash raw) (dmOf s) raw data r0, rfl, rfl, ?_, ?_, ?_⟩
              · simpa [fileExistsAndNotEmpty_some_iff] using hcsv _ _
              · simpa [fileExistsAndNotEmpty_some_iff] using hjson _
              · simpa [fileExistsAndNotEmpty_some_iff] using hjson _
            have h2 := processMain_skip_eq P noFaults
              ((processCSVm P noFaults (P.hash raw) (dmOf s) s).state) raw hs1raw hne hskip
            rw [h2]
            exact ⟨rfl, rfl⟩
      · rw [Bool.not_eq_true] at hneed
        have h1 := processMain_skip_eq P noFaults s raw hr hne hneed
        rw [h1]
        simp [h1]

/-- C3 witness: a concrete successful run followed by a second run that writes
nothing. -/
theorem C3_idempotent_witness :
    (processMain testPrims noFaults
        ((processMain testPrims noFaults freshState).state)).writes = [] ∧
    (processMain testPrims noFaults
        ((processMain testPrims noFaults freshState).state)).state
      = (processMain testPrims noFaults freshState).state :=
  C3_idempotent testPrims freshState
    (fun cols data => by simp [testPrims])
    (fun data => by simp [testPrims])
    (by decide)

theorem isProcessingNeeded_true_of_file (s : PState) (h0 : Str)
    (h : fileExistsAndNotEmpty s.sortedCsv = false ∨
      fileExistsAndNotEmpty s.jsonFile = false ∨
      fileExistsAndNotEmpty s.sortedJson = false) :
    isProcessingNeeded s h0 = true := by
  rcases hm : s.metadataFile with _ | mo
  · simp [isProcessingNeeded, hm]
  · rcases mo with _ | m
    · simp [isProcessingNeeded, hm]
    · rcases h with h | h | h <;> simp [isProcessingNeeded, hm, h]

/-- C4 counterexample: after a successful run, corrupting the sorted-CSV artifact to
different non-empty content while the raw file is unchanged does NOT trigger
reprocessing - the next run skips, writes nothing, and the corrupt artifact stays,
unlike what a from-scratch run would produce. -/
theorem C4_self_healing_counterexample :
    corruptedState.rawCsv = processedState.rawCsv ∧
    corruptedState = { processedState with sortedCsv := some ("Z".toList) } ∧
    fileExistsAndNotEmpty corruptedState.sortedCsv = true ∧
    (processMain testPrims noFaults corruptedState).outcome = ProcOutcome.skipped ∧
    (processMain testPrims noFaults corruptedState).writes = [] ∧
    (processMain testPrims noFaults corruptedState).state.sortedCsv = some ("Z".toList) ∧
    corruptedState.sortedCsv
      ≠ (processMain testPrims noFaults freshState).state.sortedCsv := by
  decide

/-- C4 amended: deleting or emptying any one derived artifact while the raw file is
unchanged forces full reprocessing, and the regenerated artifacts (and the metadata
record carrying their digests) equal those of a from-scratch run on the same raw
content; corruption that leaves an artifact non-empty is not detected (see the
counterexample). -/
theorem C4_self_healing_amended (P : Prims) (s1 : PState) (raw : Str)
    (data : List CsvRecord) (r0 : CsvRecord) (s2 : PState)
    (hraw : s1.rawCsv = some raw) (hne : raw ≠ [])
    (hparse : P.parseCsv raw = Except.ok data) (hhead : data.head? = some r0)
    (hdeg : s2 ∈ [
      { s1 with sortedCsv := none }, { s1 with sortedCsv := some [] },
      { s1 with jsonFile := none }, { s1 with jsonFile := some [] },
      { s1 with sortedJson := none }, { s1 with sortedJson := some [] } ]) :
    (processMain P noFaults s2).outcome
      = ProcOutcome.processed (Except.ok (procMeta P (P.hash raw) (dmOf s2) raw data r0)) ∧
    (processMain P noFaults s2).state.sortedCsv
      = (processMain P noFaults (scratchState raw s2.downloadMetaFile)).state.sortedCsv ∧
    (processMain P noFaults s2).state.jsonFile
      = (processMain P noFaults (scratchState raw s2.downloadMetaFile)).state.jsonFile ∧
    (processMain P noFaults s2).state.sortedJson
      = (processMain P noFaults (scratchState raw s2.downloadMetaFile)).state.sortedJson ∧
    (processMain P noFaults s2).state.metadataFile
      = (processMain P noFaults (scratchState raw s2.downloadMetaFile)).state.metadataFile := by
  have key : ∀ s2' : PState, s2'.rawCsv = some raw →
      isProcessingNeeded s2' (P.hash raw) = true →
      ((processMain P noFaults s2').outcome
        = ProcOutcome.processed (Except.ok (procMeta P (P.hash raw) (dmOf s2') raw data r0)) ∧
      (processMain P noFaults s2').state.sortedCsv
        = (processMain P noFaults (scratchState raw s2'.downloadMetaFile)).state.sortedCsv ∧
      (processMain P noFaults s2').state.jsonFile
        = (processMain P noFaults (scratchState raw s2'.downloadMetaFile)).state.jsonFile ∧
      (processMain P noFaults s2').state.sortedJson
        = (processMain P noFaults (scratchState raw s2'.downloadMetaFile)).state.sortedJson ∧
      (processMain P noFaults s2').state.metadataFile
        = (processMain P noFaults
            (scratchState raw s2'.downloadMetaFile)).state.metadataFile) := by
    intro s2' hraw2 hneed
    rw [processMain_processed_eq P noFaults s2' raw hraw2 hne hneed,
      processMain_processed_eq P noFaults (scratchState raw s2'.downloadMetaFile) raw rfl
        hne (by simp [isProcessingNeeded, scratchState]),
      processCSVm_ok_eq P (P.hash raw) (dmOf s2') s2' raw data r0 hraw2 hparse hhead,
      processCSVm_ok_eq P (P.hash raw) (dmOf (scratchState raw s2'.downloadMetaFile))
        (scratchState raw s2'.downloadMetaFile) raw data r0 rfl hparse hhead]
    exact ⟨rfl, rfl, rfl, rfl, rfl⟩
  simp only [List.mem_cons, List.mem_singleton, List.not_mem_nil, or_false] at hdeg
  rcases hdeg with rfl | rfl | rfl | rfl | rfl | rfl <;>
    exact key _ hraw
      (isProcessingNeeded_true_of_file _ _ (by simp [fileExistsAndNotEmpty]))

/-- C4 amended witness: deleting the sorted CSV from a processed state forces a full
re-run that regenerates the artifacts of a from-scratch run. -/
theorem C4_self_healing_amended_witness :
    (processMain testPrims noFaults { processedState with sortedCsv := none }).outcome
      = ProcOutcome.processed (Except.ok (procMeta testPrims
          (testPrims.hash ("ba".toList))
          (dmOf { processedState with sortedCsv := none }) ("ba".toList)
          [[(("K".toList), ("b".toList))], [(("K".toList), ("a".toList))]]
          [(("K".toList), ("b".toList))])) ∧
    (processMain testPrims noFaults { processedState with sortedCsv := none }).state.sortedCsv
      = (processMain testPrims noFaults (scratchState ("ba".toList)
          ({ processedState with sortedCsv := none } : PState).downloadMetaFile)).state.sortedCsv ∧
    (processMain testPrims noFaults { processedState with sortedCsv := none }).state.jsonFile
      = (processMain testPrims noFaults (scratchState ("ba".toList)
          ({ processedState with sortedCsv := none } : PState).downloadMetaFile)).state.jsonFile ∧
    (processMain testPrims noFaults { processedState with sortedCsv := none }).state.sortedJson
      = (processMain testPrims noFaults (scratchState ("ba".toList)
          ({ processedState with sortedCsv := none } : PState).downloadMetaFile)).state.sortedJson ∧
    (processMain testPrims noFaults { processedState with sortedCsv := none }).state.metadataFile
      = (processMain testPrims noFaults (scratchState ("ba".toList)
          ({ processedState with sortedCsv := none } : PState).downloadMetaFile)).state.metadataFile :=
  C4_self_healing_amended testPrims processedState ("ba".toList)
    [[(("K".toList), ("b".toList))], [(("K".toList), ("a".toList))]]
    [(("K".toList), ("b".toList))]
    { processedState with sortedCsv := none }
    (by decide) (by decide) (by decide) (by decide) (by decide)

theorem processCSVm_result_ok_iff (P : Prims) (F : Faults) (h0 : Str)
    (dm : Option CsvDownloadMetadata) (s : PState) (raw : Str) (data : List CsvRecord)
    (r0 : CsvRecord) (hraw : s.rawCsv = some raw)
    (hparse : P.parseCsv raw = Except.ok data) (hhead : data.head? = some r0) :
    (∃ m, (processCSVm P F h0 dm s).result = Except.ok m) ↔
      F.failWriteSortedCsv = false ∧
      (F.failWriteJson = false ∨ s.jsonFile.isSome = true) ∧
      (F.failWriteSortedJson = false ∨ s.sortedJson.isSome = true) := by
  obtain ⟨f1, f2, f3, f4⟩ := F
  rcases hj : s.jsonFile with _ | jc0 <;> rcases hsj : s.sortedJson with _ | sj0 <;>
    cases f1 <;> cases f2 <;> cases f3 <;> cases f4 <;>
      simp [processCSVm, hraw, hparse, hhead, hj, hsj]

/-- C9 counterexample: with a failing JSON-artifact write (swallowed by
`saveJsonFile`) and a stale JSON file on disk, the processing run exits 0 even though
an I/O error occurred during artifact writing, leaving the stale artifact in place. -/
theorem C9_exit_code_counterexample :
    jsonWriteFault.failWriteJson = true ∧
    (processMain testPrims jsonWriteFault staleJsonState).exitCode = 0 ∧
    ((processMain testPrims jsonWriteFault staleJsonState).writes.all
      (fun e => match e with | ProcEv.writeJson _ => false | _ => true)) = true ∧
    (processMain testPrims jsonWriteFault staleJsonState).state.jsonFile
      = some ("stale".toList) ∧
    (processMain testPrims jsonWriteFault staleJsonState).state.jsonFile
      ≠ some (testPrims.jsonArr
          [[(("K".toList), ("b".toList))], [(("K".toList), ("a".toList))]]) := by
  decide

/-- C9 amended: the scrape run exits 0 exactly when the fetch succeeds, exactly one
candidate link exists and the download yields a non-empty file; the processing run
exits 0 exactly when the raw file is non-empty and either the skip condition holds or
the parse succeeds with at least one record, the sorted-CSV write does not throw, and
each JSON hash read finds a file (a failed JSON write is swallowed and only changes the
exit code indirectly, when no stale file is left to hash; a failed metadata write never
does). -/
theorem C9_exit_codes_amended :
    (∀ (env : ScrapeEnv) (s : SState),
      (scrapeMain env s).exitCode = 0 ↔
        env.fetchOk = true ∧ (∃ d, findCsvLink env.doc = Except.ok d) ∧
        env.downloadOk = true ∧ env.downloadedContent ≠ []) ∧
    (∀ (P : Prims) (F : Faults) (s : PState),
      (processMain P F s).exitCode = 0 ↔
        ∃ raw, s.rawCsv = some raw ∧ raw ≠ [] ∧
          (isProcessingNeeded s (P.hash raw) = false ∨
            (∃ data r0, P.parseCsv raw = Except.ok data ∧ data.head? = some r0 ∧
              F.failWriteSortedCsv = false ∧
              (F.failWriteJson = false ∨ s.jsonFile.isSome = true) ∧
              (F.failWriteSortedJson = false ∨ s.sortedJson.isSome = true)))) := by
  constructor
  · intro env s
    rw [scrapeMain_exitCode_eq]
    by_cases hf : env.fetchOk = false
    · simp [hf]
    · rw [Bool.not_eq_false] at hf
      cases hl : findCsvLink env.doc with
      | error e => simp [hf, hl]
      | ok d =>
        by_cases hd : env.downloadOk = false
        · simp [hf, hl, hd]
        · rw [Bool.not_eq_false] at hd
          by_cases hc : env.downloadedContent.isEmpty = true
          · rw [List.isEmpty_iff] at hc
            simp [hf, hl, hd, hc]
          · have hc' : env.downloadedContent ≠ [] := by
              rw [List.isEmpty_iff] at hc
              exact hc
            simp [hf, hl, hd, isEmpty_eq_false_of_ne hc', hc']
  · intro P F s
    rcases hr : s.rawCsv with _ | raw
    · simp [processMain, hr]
    · by_cases hne : raw = []
      · subst hne
        simp [processMain, hr]
      · by_cases hneed : isProcessingNeeded s (P.hash raw) = true
        · rw [processMain_processed_eq P F s raw hr hne hneed]
          rcases hp : P.parseCsv raw with e | data
          · have hres : processCSVm P F (P.hash raw) (dmOf s) s
                = { result := Except.error (PErr.parse e), state := s, writes := [] } := by
              simp [processCSVm, hr, hp]
            rw [hres]
            constructor
            · intro h0
              exact absurd h0 (by simp)
            · rintro ⟨raw', hraw', hne', hdisj⟩
              have hrr : raw' = raw := by
                simpa using hraw'.symm
              subst hrr
              rcases hdisj with hskip | ⟨data', r0', hp', _⟩
              · rw [hneed] at hskip
                exact absurd hskip (by simp)
              · rw [hp] at hp'
                exact Except.noConfusion hp'
          · rcases hd : data.head? with _ | r0
            · have hres : processCSVm P F (P.hash raw) (dmOf s) s
                  = { result := Except.error PErr.emptyRecords, state := s,
                      writes := [] } := by
                simp [processCSVm, hr, hp, hd]
              rw [hres]
              constructor
              · intro h0
                exact absurd h0 (by simp)
              · rintro ⟨raw', hraw', hne', hdisj⟩
                have hrr : raw' = raw := by
                  simpa using hraw'.symm
                subst hrr
                rcases hdisj with hskip | ⟨data', r0', hp', hd', _⟩
                · rw [hneed] at hskip
                  exact absurd hskip (by simp)
                · have hdd : data' = data := by
                    rw [hp] at hp'
                    exact (Except.ok.inj hp').symm
                  subst hdd
                  rw [hd] at hd'
                  exact Option.noConfusion hd'
            · constructor
              · intro h0
                rcases hres : (processCSVm P F (P.hash raw) (dmOf s) s).result with e | m
                · rw [hres] at h0
                  exact absurd h0 (by simp)
                · obtain ⟨hc1, hc2, hc3⟩ :=
                    (processCSVm_result_ok_iff P F (P.hash raw) (dmOf s) s raw data r0
                      hr hp hd).mp ⟨m, hres⟩
                  exact ⟨raw, rfl, hne, Or.inr ⟨data, r0, hp, hd, hc1, hc2, hc3⟩⟩
              · rintro ⟨raw', hraw', hne', hdisj⟩
                rcases hdisj with hskip | ⟨data', r0', hp', hd', hc1, hc2, hc3⟩
                · have hrr : raw' = raw := by
                    simpa using hraw'.symm
                  rw [hrr] at hskip
                  rw [hneed] at hskip
                  exact absurd hskip (by simp)
                · obtain ⟨m, hm⟩ :=
                    (processCSVm_result_ok_iff P F (P.hash raw) (dmOf s) s raw data r0
                      hr hp hd).mpr ⟨hc1, hc2, hc3⟩
                  rw [hm]
        · rw [Bool.not_eq_true] at hneed
          rw [processMain_skip_eq P F s raw hr hne hneed]
          constructor
          · intro _
            exact ⟨raw, rfl, hne, Or.inl hneed⟩
          · intro _
            rfl
